import Mathlib

/-!
Verification development for the cloudflare-voicebots repository.

The definitions below are shallow embeddings of the TypeScript source:
pure functions become Lean functions, stateful handlers become explicit
state-passing functions, JavaScript numbers in bitwise positions are
modelled as `Int`/`Nat` with explicit two's-complement arithmetic, and
network/provider outcomes become explicit parameters.  Each definition
cites the file and line range it embeds.
-/

/-! ## JavaScript arithmetic helpers

JavaScript bitwise operators coerce their operands to 32-bit two's
complement integers.  All values reaching the operators modelled here lie
in the int32 range, and every masked result is below 2^31, so no final
sign reinterpretation is needed. -/

/-- Two's-complement 32-bit view of an integer in the int32 range. -/
def toUint32 (a : Int) : Nat := (a % 4294967296).toNat

/-- JavaScript bitwise AND for values in the int32 range whose masked
result is below 2^31 (all uses here mask with at most 0xFF). -/
def jsAnd (a b : Int) : Int := (Nat.land (toUint32 a) (toUint32 b) : Nat)

/-- JavaScript bitwise OR for non-negative values below 2^31. -/
def jsOr (a b : Int) : Int := (Nat.lor (toUint32 a) (toUint32 b) : Nat)

/-- JavaScript arithmetic right shift for values in the int32 range:
floor division by the corresponding power of two. -/
def jsShr (a : Int) (n : Nat) : Int := Int.fdiv a (2 ^ n)

/-- JavaScript left shift for small non-negative values (no overflow). -/
def jsShl (a : Int) (n : Nat) : Int := a * 2 ^ n

/-- JavaScript bitwise NOT. -/
def jsNot (a : Int) : Int := -a - 1

/-- JavaScript String.prototype.trim, modelled on the character list of
the string (whitespace stripped from both ends). -/
def jsTrim (s : String) : String :=
  ⟨((s.data.dropWhile Char.isWhitespace).reverse.dropWhile Char.isWhitespace).reverse⟩

namespace AudioCodec

/-- Embeds the exponent search loop of InworldTTS.linearToMulaw
(src/services/tts/inworld-tts.ts lines 221-228): the smallest exponent
exp in 0..7 with sample less than or equal to 0xFF shifted left by exp,
defaulting to the initial value 7 when no iteration matches. -/
def findExponent (sample : Int) : Nat :=
  ((List.range 8).find? (fun exp => sample ≤ jsShl 0xFF exp)).getD 7

/-- Embeds InworldTTS.linearToMulaw (src/services/tts/inworld-tts.ts
lines 207-236); ElevenLabsTTS.linearToMulaw (src/services/tts/
elevenlabs.ts lines 309-331) is textually identical.  BIAS = 0x84,
CLIP = 8159. -/
def linearToMulaw (sample : Int) : Nat :=
  let BIAS : Int := 0x84
  let CLIP : Int := 8159
  let sign : Int := jsAnd (jsShr sample 8) 0x80
  let s1 : Int := if sign ≠ 0 then -sample else sample
  let s2 : Int := if s1 > CLIP then CLIP else s1
  let s3 : Int := s2 + BIAS
  let exponent : Nat := findExponent s3
  let mantissa : Int := jsAnd (jsShr s3 (exponent + 3)) 0x0F
  (jsAnd (jsNot (jsOr (jsOr sign (jsShl exponent 4)) mantissa)) 0xFF).toNat

/-- JavaScript Int16Array element store: wrap to the signed 16-bit range. -/
def toInt16 (a : Int) : Int := (a + 32768) % 65536 - 32768

/-- Embeds the per-byte mu-law expansion inside
TwilioService.processIncomingAudio (src/services/twilio/twilio-service.ts
lines 97-120).  BIAS = 0x84, CLIP = 32635. -/
def mulawByteToPcm16 (mulawByte : Int) : Int :=
  let BIAS : Int := 0x84
  let CLIP : Int := 32635
  let ulaw : Int := jsAnd (jsNot mulawByte) 0xFF
  let sign : Int := jsAnd ulaw 0x80
  let exponent : Int := jsAnd (jsShr ulaw 4) 0x07
  let mantissa : Int := jsAnd ulaw 0x0F
  let s0 : Int := jsShl mantissa 1 + 1
  let s1 : Int := s0 + BIAS
  let s2 : Int := jsShl s1 exponent.toNat
  let s3 : Int := s2 - BIAS
  let s4 : Int := if sign ≠ 0 then -s3 else s3
  let s5 : Int := if s4 > CLIP then CLIP else s4
  let s6 : Int := if s5 < -CLIP then -CLIP else s5
  toInt16 s6

/-- Embeds TwilioService.processIncomingAudio (src/services/twilio/
twilio-service.ts lines 83-127) after base64 decoding: each mu-law byte
of the payload is expanded to one 16-bit PCM sample. -/
def processIncomingAudio (payloadBytes : List Nat) : List Int :=
  payloadBytes.map (fun b => mulawByteToPcm16 (b : Int))

end AudioCodec

namespace InworldTTS

/-- The 4-byte ASCII tag "data" of a WAV data subchunk. -/
def dataTag : List Nat := [0x64, 0x61, 0x74, 0x61]

/-- Embeds the byte comparison inside the scan loop of
InworldTTS.extractMulawFromWav (src/unnamed/part_002 lines 288-289):
the four bytes at positions i..i+3 spell "data". -/
def isDataTagAt (wavBytes : List Nat) (i : Nat) : Bool :=
  wavBytes.getD i 0 == 0x64 && wavBytes.getD (i + 1) 0 == 0x61 &&
  wavBytes.getD (i + 2) 0 == 0x74 && wavBytes.getD (i + 3) 0 == 0x61

/-- Embeds the scan loop of InworldTTS.extractMulawFromWav
(src/unnamed/part_002 lines 286-293): for i from 0 while
i < wavBytes.length - 4, stop at the first i where the tag matches.
The fuel argument counts the remaining loop iterations. -/
def findDataLoop (wavBytes : List Nat) : Nat → Nat → Option Nat
  | _, 0 => none
  | i, fuel + 1 =>
    if isDataTagAt wavBytes i then some i else findDataLoop wavBytes (i + 1) fuel

/-- The scan starts at i = 0 and runs while i < wavBytes.length - 4. -/
def findDataStart (wavBytes : List Nat) : Option Nat :=
  findDataLoop wavBytes 0 (wavBytes.length - 4)

/-- Embeds InworldTTS.extractMulawFromWav (src/unnamed/part_002 lines
278-314): find the first occurrence of the ASCII tag "data", set
dataStart to that index plus 8 (skipping the tag and the 4-byte size
field), and return wavBytes.slice(dataStart); return the empty sequence
when the tag is not found. -/
def extractMulawFromWav (wavBytes : List Nat) : List Nat :=
  match findDataStart wavBytes with
  | some i => wavBytes.drop (i + 8)
  | none => []

end InworldTTS

namespace VoiceAgent

/-- The full-sentence delimiter set (src/agent/voice-agent.ts line 29). -/
def full_sentence_delimiters : String := ".?!\n…。"

/-- Stream-chunk events consumed by VoiceAgent.onNewGeneratedChunk: text
deltas, the finish event, and every other chunk kind (tool calls, tool
results, ...), which the handler ignores. -/
inductive ChunkEvent
  | textDelta (textDelta : String)
  | finish
  | otherEvent
deriving DecidableEq, Repr

/-- The text accumulation state of the agent (this.textBuffer). -/
structure SegState where
  textBuffer : String
deriving DecidableEq, Repr

/-- Embeds the text-segmentation logic of VoiceAgent.onNewGeneratedChunk
(src/agent/voice-agent.ts lines 142-170).  The optional result models
the tts.sendText(text, true) call (the handler always passes
flush = true).  A text delta is appended to the buffer; when its last
character is in the full-sentence delimiter set, the trimmed buffer is
emitted and the buffer cleared.  On finish, a non-empty trimmed
remainder is emitted and the buffer cleared.  An empty delta has no last
character: JavaScript indexes at -1, reads undefined, and
String.includes of undefined is false. -/
def onNewGeneratedChunk (st : SegState) (chunk : ChunkEvent) :
    SegState × Option String :=
  match chunk with
  | .textDelta d =>
    let buf := st.textBuffer ++ d
    let isEndOfSentence : Bool :=
      match d.data.getLast? with
      | some c => full_sentence_delimiters.data.contains c
      | none => false
    if isEndOfSentence then (⟨""⟩, some (jsTrim buf))
    else (⟨buf⟩, none)
  | .finish =>
    if jsTrim st.textBuffer ≠ "" then (⟨""⟩, some (jsTrim st.textBuffer))
    else (st, none)
  | .otherEvent => (st, none)

/-- Runs a sequence of chunks, recording the per-chunk emission. -/
def runChunks (st : SegState) : List ChunkEvent → SegState × List (Option String)
  | [] => (st, [])
  | c :: cs =>
    let s1 := onNewGeneratedChunk st c
    let s2 := runChunks s1.1 cs
    (s2.1, s1.2 :: s2.2)

/-- Stated from the spec: the flush trigger is that the last character
of the delta is a full-sentence delimiter. -/
def endsWithFullSentenceDelimiter (d : String) : Bool :=
  match d.data.getLast? with
  | some c => full_sentence_delimiters.data.contains c
  | none => false

/-- A transcript event emitted by an STT adapter. -/
structure Transcript where
  text : String
  isFinal : Bool
deriving DecidableEq, Repr

/-- The transcript accumulation state (this.transcriptAccumulator),
holding the text of each accumulated TextUIPart. -/
structure TranscriptAccState where
  transcriptAccumulator : List String
deriving DecidableEq, Repr

/-- Embeds VoiceAgent.handleTranscript (src/agent/voice-agent.ts lines
113-140).  A transcript with non-empty text is pushed onto the
accumulator; then, when the transcript is final and the accumulator is
non-empty, one user message is committed whose content joins the
accumulated fragment texts with a space, and the accumulator is cleared.
The optional result models the message appended via saveMessages
(none = no message committed by this call). -/
def handleTranscript (st : TranscriptAccState) (t : Transcript) :
    TranscriptAccState × Option String :=
  let acc :=
    if t.text.length > 0 then st.transcriptAccumulator ++ [t.text]
    else st.transcriptAccumulator
  if t.isFinal = true ∧ 0 < acc.length then
    (⟨[]⟩, some (String.intercalate " " acc))
  else (⟨acc⟩, none)

end VoiceAgent

namespace InworldTTS

/-- Outcome of the Inworld synthesize HTTP request as observed by
sendText: the fetch may throw, the response may be non-ok, the body may
fail to parse as JSON, the parsed body may carry no audio content, or it
may carry base64 audio (already decoded here to its byte list). -/
inductive RequestOutcome
  | fetchThrew
  | responseNotOk
  | parseFailed
  | noAudioContent
  | audioContent (wavBytes : List Nat)
deriving DecidableEq, Repr

/-- Observable effects of one InworldTTS.sendText call. -/
inductive Effect
  | providerRequest (text : String)
  | audioCallback (bytes : List Nat)
deriving DecidableEq, Repr

/-- Embeds InworldTTS.sendText (src/unnamed/part_002 lines 156-268; the
variant at src/services/tts/inworld-tts.ts lines 41-154 has the same
guard and the same try/catch structure, differing only in the audio
post-processing).  Empty or single-character trimmed text returns before
any provider call and before any callback.  Otherwise the HTTP request
is issued; on a successful response with audio content the registered
callbacks receive the bytes extracted from the WAV body.  Every failure
path is caught inside the method (logged, then a plain return), so
sendText never propagates an error: the result is Except.ok in every
case. -/
def sendText (text : String) (outcome : RequestOutcome) :
    Except String (List Effect) :=
  if jsTrim text = "" ∨ (jsTrim text).length = 1 then
    Except.ok []
  else
    match outcome with
    | .fetchThrew => Except.ok [Effect.providerRequest text]
    | .responseNotOk => Except.ok [Effect.providerRequest text]
    | .parseFailed => Except.ok [Effect.providerRequest text]
    | .noAudioContent => Except.ok [Effect.providerRequest text]
    | .audioContent wavBytes =>
      Except.ok [Effect.providerRequest text,
        Effect.audioCallback (extractMulawFromWav wavBytes)]

end InworldTTS

namespace ElevenLabsTTS

/-- Connection state of the ElevenLabs adapter as read by sendText after
its bounded wait loop: whether this.isConnected is true and whether
this.ws is non-null. -/
structure ConnState where
  isConnected : Bool
  hasWs : Bool
deriving DecidableEq, Repr

/-- A text message written to the provider websocket. -/
inductive WsMessage
  | textMessage (text : String) (flush : Bool)
deriving DecidableEq, Repr

/-- Embeds ElevenLabsTTS.sendText (src/services/tts/elevenlabs.ts lines
194-243).  The method first waits up to 3 seconds for a pending
connection; the wait only passes time, so the state here is the state
after the wait.  It then throws the error "WebSocket not connected" when
there is no live session, and otherwise writes exactly one websocket
message: text with a flush field when flush is true, plain text
otherwise.  There is no guard against empty or punctuation-only text. -/
def sendText (st : ConnState) (text : String) (flush : Bool) :
    Except String (List WsMessage) :=
  if st.isConnected = false ∨ st.hasWs = false then
    Except.error "WebSocket not connected"
  else if flush then Except.ok [WsMessage.textMessage text true]
  else Except.ok [WsMessage.textMessage text false]

end ElevenLabsTTS

namespace DeepgramStt

/-- Adapter state read by DeepgramStt.connect: whether this.session is
set, whether session.isConnected() holds, and the auto-reconnect flag. -/
structure State where
  hasSession : Bool
  sessionConnected : Bool
  shouldReconnect : Bool
deriving DecidableEq, Repr

/-- What a connect call did. -/
inductive ConnectAction
  | alreadyConnected
  | createSession
deriving DecidableEq, Repr

/-- Embeds DeepgramStt.connect (src/services/stt/deepgram.ts lines
43-90): when a session exists and isConnected() is true, the method logs
and returns without touching any state; otherwise it creates a fresh
live session (whose websocket is not yet open) and registers its event
handlers. -/
def connect (st : State) : State × ConnectAction :=
  if st.hasSession = true ∧ st.sessionConnected = true then
    (st, ConnectAction.alreadyConnected)
  else
    ({ st with hasSession := true, sessionConnected := false },
     ConnectAction.createSession)

end DeepgramStt

namespace AssemblyAIStt

/-- Adapter state (src/unnamed/part_006 lines 7-17): whether this.ws is
set and whether it is in the OPEN ready state, the auto-reconnect flag,
the reconnect attempt counter, and whether a cached temporary token is
still valid. -/
structure State where
  hasWs : Bool
  wsOpen : Bool
  shouldReconnect : Bool
  reconnectAttempts : Nat
  tokenValid : Bool
deriving DecidableEq, Repr

/-- maxReconnectAttempts (src/unnamed/part_006 line 17). -/
def maxReconnectAttempts : Nat := 3

/-- What a connect call did. -/
inductive ConnectAction
  | alreadyConnected
  | createWebSocket
deriving DecidableEq, Repr

/-- Embeds the entry of AssemblyAIStt.connect (src/unnamed/part_006
lines 97-132): an existing websocket in the OPEN state returns
immediately with no state change; otherwise a temporary token is
obtained (the cached one when still valid, else a fresh one, throwing
when that request fails - tokenOk models its success) and a fresh
websocket is created, not yet open. -/
def connect (st : State) (tokenOk : Bool) :
    Except String (State × ConnectAction) :=
  if st.hasWs = true ∧ st.wsOpen = true then
    Except.ok (st, ConnectAction.alreadyConnected)
  else if st.tokenValid = false ∧ tokenOk = false then
    Except.error "Failed to generate AssemblyAI token"
  else
    Except.ok ({ st with hasWs := true, wsOpen := false, tokenValid := true },
      ConnectAction.createWebSocket)

/-- Embeds the onopen handler (src/unnamed/part_006 lines 134-141):
reset the reconnect counter and enable auto-reconnect. -/
def onOpen (st : State) : State :=
  { st with wsOpen := true, reconnectAttempts := 0, shouldReconnect := true }

/-- A websocket close event reduced to the fields the handler reads:
whether the close code or reason marks an auth error, and whether the
reason marks an expired or invalid token. -/
structure CloseEvent where
  isAuthError : Bool
  isTokenExpired : Bool
deriving DecidableEq, Repr

/-- What the onclose handler did. -/
inductive CloseAction
  | scheduleReconnect (delayMs : Nat)
  | giveUp
  | noAction
deriving DecidableEq, Repr

/-- The cached token after the onclose handler: auth errors and token
expiry clear it (src/unnamed/part_006 lines 158-165). -/
def tokenAfter (st : State) (ev : CloseEvent) : Bool :=
  if ev.isAuthError = true ∨ ev.isTokenExpired = true then false
  else st.tokenValid

/-- Embeds the onclose handler (src/unnamed/part_006 lines 148-182).
The closed websocket is no longer OPEN.  While shouldReconnect is set
and fewer than maxReconnectAttempts reconnects have been made, the
counter is incremented and a reconnect is scheduled after
min(1000 * 2^(reconnectAttempts - 1), 10000) milliseconds, the counter
already incremented as in the source; otherwise, once the counter has
reached maxReconnectAttempts, the handler reports that it gives up
(the terminal connection failure) and clears shouldReconnect; otherwise
nothing happens. -/
def onClose (st : State) (ev : CloseEvent) : State × CloseAction :=
  if st.shouldReconnect = true ∧ st.reconnectAttempts < maxReconnectAttempts then
    ({ st with
        tokenValid := tokenAfter st ev
        wsOpen := false
        reconnectAttempts := st.reconnectAttempts + 1 },
     CloseAction.scheduleReconnect
       (min (1000 * 2 ^ (st.reconnectAttempts + 1 - 1)) 10000))
  else if maxReconnectAttempts ≤ st.reconnectAttempts then
    ({ st with
        tokenValid := tokenAfter st ev
        wsOpen := false
        shouldReconnect := false },
     CloseAction.giveUp)
  else
    ({ st with tokenValid := tokenAfter st ev, wsOpen := false },
     CloseAction.noAction)

/-- Runs the onclose handler over a sequence of close events with no
intervening successful reopen (consecutive connection failures),
recording the actions in order. -/
def runCloses (st : State) : List CloseEvent → State × List CloseAction
  | [] => (st, [])
  | ev :: evs =>
    let s1 := onClose st ev
    let s2 := runCloses s1.1 evs
    (s2.1, s1.2 :: s2.2)

/-- The delays of the scheduled reconnects, in order. -/
def scheduledDelays : List CloseAction → List Nat
  | [] => []
  | CloseAction.scheduleReconnect d :: rest => d :: scheduledDelays rest
  | CloseAction.giveUp :: rest => scheduledDelays rest
  | CloseAction.noAction :: rest => scheduledDelays rest

/-- A delay sequence is monotonically non-decreasing. -/
def nonDecreasing : List Nat → Bool
  | [] => true
  | [_] => true
  | a :: b :: t => decide (a ≤ b) && nonDecreasing (b :: t)

/-- The observable effect of one sendAudioChunk call: the chunk bytes
written to the open websocket. -/
inductive SendEffect
  | sent (bytes : List Nat)
deriving DecidableEq, Repr

/-- Embeds AssemblyAIStt.sendAudioChunk (src/unnamed/part_006 lines
237-283).  With no websocket object at all: when shouldReconnect is set,
connect is awaited (propagating its token failure) and the chunk is
retried only if the fresh websocket is already OPEN - which it never is,
since connect returns before onopen fires - otherwise the method returns
with the chunk dropped; when shouldReconnect is clear the chunk is
dropped.  With a websocket that is not in the OPEN state: when
shouldReconnect is set, connect is awaited and the method returns
without sending; otherwise it returns with the chunk dropped.  With an
OPEN websocket the chunk is written (a send error is caught and logged
without reconnecting).  Every drop path returns normally: no error is
raised to the caller and no callback fires. -/
def sendAudioChunk (st : State) (tokenOk : Bool) (chunk : List Nat) :
    Except String (State × List SendEffect) :=
  if st.hasWs = false then
    (if st.shouldReconnect = true then
      match connect st tokenOk with
      | Except.error e => Except.error e
      | Except.ok (st1, _) =>
        if st1.hasWs = true ∧ st1.wsOpen = true then
          Except.ok (st1, [SendEffect.sent chunk])
        else Except.ok (st1, [])
    else Except.ok (st, []))
  else if st.wsOpen = false then
    (if st.shouldReconnect = true then
      match connect st tokenOk with
      | Except.error e => Except.error e
      | Except.ok (st1, _) => Except.ok (st1, [])
    else Except.ok (st, []))
  else Except.ok (st, [SendEffect.sent chunk])

end AssemblyAIStt

namespace TwilioVoiceAgent

/-- Call-scoped state of the TwilioVoiceAgent (src/unnamed/part_006
lines 331-341 and the inherited tts/stt handles of VoiceAgent).  The
user is represented by the first name used in the personalized greeting
when the lookup found one. -/
structure AgentState where
  currentStreamSid : Option String
  currentCallSid : Option String
  currentCallerId : Option String
  currentUser : Option String
  ttsReady : Bool
  sttReady : Bool
  greetingSent : Bool
deriving DecidableEq, Repr

/-- Twilio media-stream control events handled by
TwilioVoiceAgent.onMessage, with the fields the handler reads: the
stream id (absent or empty string is falsy in the source), and for media
the base64-decoded mu-law payload when present. -/
inductive TwilioEvent
  | connected
  | start (streamSid : String) (callSid : String)
  | media (streamSid : Option String) (payload : Option (List Nat))
  | stop (callSid : String)
  | unhandled
deriving DecidableEq, Repr

/-- Observable effects of one onMessage call: a greeting sent to TTS
(personalized when user data is present), or a decoded audio buffer
forwarded to the STT session. -/
inductive AgentEffect
  | greeting (personalized : Bool)
  | sttForward (pcm : List Int)
deriving DecidableEq, Repr

/-- Models VoiceAgent.onStart as invoked on demand from the event
handlers (src/agent/voice-agent.ts lines 57-104): it always constructs
the Deepgram STT service and the Inworld TTS service; InworldTTS.connect
is a no-op and DeepgramStt.connect only registers handlers, so the
services come up deterministically. -/
def onStartServices (st : AgentState) : AgentState :=
  { st with ttsReady := true, sttReady := true }

/-- The greeting dispatched to tts.sendText with flush = true:
personalized when this.currentUser is set, generic otherwise
(src/unnamed/part_006 lines 789-801, 832-845, 892-915). -/
def greetingEffect (st : AgentState) : AgentEffect :=
  AgentEffect.greeting st.currentUser.isSome

/-- Embeds TwilioVoiceAgent.handleCallEnd (src/unnamed/part_006 lines
1052-1067): clear the call-scoped identifiers; the TTS/STT teardown
calls are commented out in the source, and greetingSent is not reset. -/
def handleCallEnd (st : AgentState) (_callSid : String) : AgentState :=
  { st with
      currentCallSid := none
      currentStreamSid := none
      currentCallerId := none }

/-- Embeds the voice-webhook state updates of
TwilioVoiceAgent.handleWebhook (src/unnamed/part_006 lines 413-492):
reset the stream id for the new call, store the call sid and caller id,
and store the user lookup result (none when no user was found or the
lookup failed).  greetingSent is not touched. -/
def handleWebhook (st : AgentState) (callSid callerFrom : String)
    (userLookup : Option String) : AgentState :=
  { st with
      currentStreamSid := none
      currentCallSid := some callSid
      currentCallerId := some callerFrom
      currentUser := userLookup }

/-- Embeds TwilioVoiceAgent.onConnect (src/unnamed/part_006 lines
697-735): store the call sid from the query parameter when present, and
when both a stream id and the TTS service exist, send the fixed generic
greeting - without consulting or setting greetingSent. -/
def onConnect (st : AgentState) (callSidParam : Option String) :
    AgentState × List AgentEffect :=
  let st1 :=
    match callSidParam with
    | some cs => { st with currentCallSid := some cs }
    | none => st
  if st1.currentStreamSid.isSome = true ∧ st1.ttsReady = true then
    (st1, [AgentEffect.greeting false])
  else (st1, [])

/-- Embeds the event dispatch of TwilioVoiceAgent.onMessage
(src/unnamed/part_006 lines 737-959).
On start: store the stream id; when greetingSent is still false,
initialize services if needed, send the greeting, and set greetingSent.
On connected: initialize services if needed; when greetingSent is still
false, send the greeting and set greetingSent.
On media: when the event carries a non-empty stream id different from
the current one, store it, initialize services if needed, and send the
greeting WITHOUT consulting or setting greetingSent (the source gates
this path only on the stream-id change); then decode the payload, when
present, with TwilioService.processIncomingAudio and forward it to STT.
On stop: run handleCallEnd.  Unhandled events are logged only. -/
def onMessage (st : AgentState) (ev : TwilioEvent) :
    AgentState × List AgentEffect :=
  match ev with
  | TwilioEvent.start streamSid _callSid =>
    let st1 := { st with currentStreamSid := some streamSid }
    if st1.greetingSent = true then (st1, [])
    else
      let st2 := if st1.ttsReady = true then st1 else onStartServices st1
      ({ st2 with greetingSent := true }, [greetingEffect st2])
  | TwilioEvent.connected =>
    let st1 := if st.ttsReady = true then st else onStartServices st
    if st1.greetingSent = true then (st1, [])
    else ({ st1 with greetingSent := true }, [greetingEffect st1])
  | TwilioEvent.media streamSid payload =>
    let newStream : Bool :=
      match streamSid with
      | some sid => decide (sid ≠ "") && decide (st.currentStreamSid ≠ some sid)
      | none => false
    let stage1 :=
      if newStream then
        let stA := { st with currentStreamSid := streamSid }
        let stB := if stA.ttsReady = true ∧ stA.sttReady = true then stA
                   else onStartServices stA
        (stB, [greetingEffect stB])
      else (st, ([] : List AgentEffect))
    match payload with
    | some bytes =>
      if stage1.1.sttReady = true then
        (stage1.1, stage1.2 ++ [AgentEffect.sttForward (AudioCodec.processIncomingAudio bytes)])
      else (stage1.1, stage1.2)
    | none => (stage1.1, stage1.2)
  | TwilioEvent.stop callSid => (handleCallEnd st callSid, [])
  | TwilioEvent.unhandled => (st, [])

/-- Runs a sequence of Twilio events, concatenating the effects. -/
def runEvents (st : AgentState) : List TwilioEvent → AgentState × List AgentEffect
  | [] => (st, [])
  | ev :: evs =>
    let s1 := onMessage st ev
    let s2 := runEvents s1.1 evs
    (s2.1, s1.2 ++ s2.2)

/-- The number of greetings among a list of effects. -/
def greetingCount (effs : List AgentEffect) : Nat :=
  (effs.filter fun e =>
    match e with
    | AgentEffect.greeting _ => true
    | AgentEffect.sttForward _ => false).length

/-- The state of an agent whose Durable Object already ran onStart and
whose voice webhook stored the call data of a caller without a database
record: services up, no stream id yet, greeting not yet sent. -/
def freshCallState : AgentState :=
  { currentStreamSid := none
    currentCallSid := some "CA1"
    currentCallerId := some "+15551234567"
    currentUser := none
    ttsReady := true
    sttReady := true
    greetingSent := false }

end TwilioVoiceAgent

-- ===================================================================
-- Theorems
-- ===================================================================

/-- The scan loop returns the first index at which the tag matches. -/
theorem findDataLoop_eq_some (b : List Nat) (p : Nat) :
    ∀ (fuel i : Nat), i ≤ p → p < i + fuel →
      (∀ j, i ≤ j → j < p → InworldTTS.isDataTagAt b j = false) →
      InworldTTS.isDataTagAt b p = true →
      InworldTTS.findDataLoop b i fuel = some p := by
  intro fuel
  induction fuel with
  | zero => intro i hip hlt _ _; omega
  | succ n ih =>
    intro i hip hlt hbefore hat
    rw [InworldTTS.findDataLoop]
    by_cases hi : InworldTTS.isDataTagAt b i = true
    · have : i = p := by
        by_contra hne
        have hlt' : i < p := lt_of_le_of_ne hip hne
        have := hbefore i le_rfl hlt'
        rw [this] at hi
        exact Bool.false_ne_true hi
      subst this
      simp [hi]
    · have hlt' : i < p := by
        rcases lt_or_eq_of_le hip with h | h
        · exact h
        · subst h; exact absurd hat hi
      simp only [hi, if_false]
      exact ih (i + 1) hlt' (by omega) (fun j hj hjp => hbefore j (by omega) hjp) hat

/-- When no index matches the tag, the scan loop returns none. -/
theorem findDataLoop_eq_none (b : List Nat)
    (hall : ∀ j, InworldTTS.isDataTagAt b j = false) :
    ∀ (fuel i : Nat), InworldTTS.findDataLoop b i fuel = none := by
  intro fuel
  induction fuel with
  | zero => intro i; rfl
  | succ n ih => intro i; rw [InworldTTS.findDataLoop]; simp [hall i, ih]

/-- Reading at offset k inside a dropped list is reading at i + k. -/
theorem getD_drop_add (b : List Nat) (d : Nat) :
    ∀ (i k : Nat), (b.drop i).getD k d = b.getD (i + k) d := by
  induction b with
  | nil => intro i k; simp [List.getD]
  | cons x xs ih =>
    intro i k
    cases i with
    | zero => simp
    | succ i =>
      rw [List.drop_succ_cons, ih i k, Nat.succ_add, List.getD_cons_succ]

/-- The tag test succeeds wherever dropping reveals the tag bytes. -/
theorem isDataTagAt_of_drop (b : List Nat) (i : Nat) (rest : List Nat)
    (h : b.drop i = 0x64 :: 0x61 :: 0x74 :: 0x61 :: rest) :
    InworldTTS.isDataTagAt b i = true := by
  have e0 : b.getD i 0 = 0x64 := by
    have e := getD_drop_add b 0 i 0
    rw [h] at e; simpa using e.symm
  have e1 : b.getD (i + 1) 0 = 0x61 := by
    have e := getD_drop_add b 0 i 1
    rw [h] at e; simpa using e.symm
  have e2 : b.getD (i + 2) 0 = 0x74 := by
    have e := getD_drop_add b 0 i 2
    rw [h] at e; simpa using e.symm
  have e3 : b.getD (i + 3) 0 = 0x61 := by
    have e := getD_drop_add b 0 i 3
    rw [h] at e; simpa using e.symm
  simp only [InworldTTS.isDataTagAt, Bool.and_eq_true, beq_iff_eq]
  exact ⟨⟨⟨e0, e1⟩, e2⟩, e3⟩

/-- The tag test succeeds at the start of an embedded data chunk. -/
theorem isDataTagAt_at_chunk (pre rest : List Nat) :
    InworldTTS.isDataTagAt (pre ++ (InworldTTS.dataTag ++ rest)) pre.length = true := by
  apply isDataTagAt_of_drop _ _ rest
  rw [List.drop_left]
  rfl

/-- C7: InworldTTS.extractMulawFromWav returns exactly the payload of the
data subchunk byte-for-byte.  First part: for every buffer of the form
prefix, then the "data" tag, then a 4-byte size field, then the payload,
with no tag occurrence inside the prefix, the function returns exactly
the payload.  Second part: for every buffer with no occurrence of the
tag at any position, the function returns the empty sequence. -/
theorem extractMulawFromWav_extracts_payload :
    (∀ (pre szBytes payload : List Nat),
        szBytes.length = 4 →
        (∀ j, j < pre.length →
          InworldTTS.isDataTagAt (pre ++ (InworldTTS.dataTag ++ (szBytes ++ payload))) j
            = false) →
        InworldTTS.extractMulawFromWav
            (pre ++ (InworldTTS.dataTag ++ (szBytes ++ payload))) = payload) ∧
    (∀ wavBytes, (∀ j, InworldTTS.isDataTagAt wavBytes j = false) →
        InworldTTS.extractMulawFromWav wavBytes = []) := by
  constructor
  · intro pre szBytes payload hsz hpre
    set b := pre ++ (InworldTTS.dataTag ++ (szBytes ++ payload)) with hb
    have hlen : b.length = pre.length + 8 + payload.length := by
      simp [hb, InworldTTS.dataTag, hsz]
      omega
    have hfind : InworldTTS.findDataStart b = some pre.length := by
      apply findDataLoop_eq_some b pre.length (b.length - 4) 0
      · omega
      · omega
      · intro j _ hj; exact hpre j hj
      · exact isDataTagAt_at_chunk pre (szBytes ++ payload)
    rw [InworldTTS.extractMulawFromWav, hfind]
    rcases szBytes with _ | ⟨a, _ | ⟨c, _ | ⟨e, _ | ⟨f, tl⟩⟩⟩⟩ <;> simp at hsz
    rcases tl with _ | _
    · show (pre ++ ([0x64, 0x61, 0x74, 0x61] ++ ([a, c, e, f] ++ payload))).drop
          (pre.length + 8) = payload
      rw [← List.append_assoc, ← List.append_assoc]
      have : (pre ++ [0x64, 0x61, 0x74, 0x61] ++ [a, c, e, f]).length
          = pre.length + 8 := by simp
      rw [← this, List.drop_left]
    · simp at hsz
  · intro wavBytes hall
    rw [InworldTTS.extractMulawFromWav, InworldTTS.findDataStart,
      findDataLoop_eq_none wavBytes hall]

/-- Helper: a buffer containing no 0x64 byte matches the tag nowhere. -/
theorem isDataTagAt_false_of_no_d (b : List Nat) (h : ∀ k, b.getD k 0 ≠ 0x64)
    (j : Nat) : InworldTTS.isDataTagAt b j = false := by
  have hj : (b.getD j 0 == 0x64) = false := by
    rw [beq_eq_false_iff_ne]; exact h j
  simp only [InworldTTS.isDataTagAt, hj, Bool.false_and]

/-- Witness for C7: a concrete 23-byte WAV buffer (RIFF/WAVE header, data
chunk of size 3) yields exactly its 3 payload bytes, and a concrete
buffer without the tag yields the empty sequence. -/
theorem extractMulawFromWav_extracts_payload_witness :
    InworldTTS.extractMulawFromWav
        ([0x52, 0x49, 0x46, 0x46, 0x24, 0, 0, 0, 0x57, 0x41, 0x56, 0x45]
          ++ (InworldTTS.dataTag ++ ([3, 0, 0, 0] ++ [10, 20, 30]))) = [10, 20, 30] ∧
    InworldTTS.extractMulawFromWav [0x52, 0x49, 0x46, 0x46] = [] := by
  constructor
  · exact extractMulawFromWav_extracts_payload.1
      [0x52, 0x49, 0x46, 0x46, 0x24, 0, 0, 0, 0x57, 0x41, 0x56, 0x45]
      [3, 0, 0, 0] [10, 20, 30] (by decide) (by decide)
  · refine extractMulawFromWav_extracts_payload.2 [0x52, 0x49, 0x46, 0x46]
      (isDataTagAt_false_of_no_d _ ?_)
    intro k
    rcases Nat.lt_or_ge k 4 with h | h
    · interval_cases k <;> decide
    · rw [List.getD_eq_default]
      · decide
      · simpa using h

/-- C2: the claim fails on the code.  Encoding the valid 16-bit PCM
sample 8000 with InworldTTS.linearToMulaw and decoding the resulting
mu-law byte with the expansion in TwilioService.processIncomingAudio
yields 5084.  The sample 8000 falls in exponent band 5 of the encoder
(biased value 8132 lies in (0xFF shifted by 4, 0xFF shifted by 5]), whose
quantization step is 2^(5+3) = 256, but the round-trip error is
8000 - 5084 = 2916, far above the step.  The two halves of the codec use
incompatible reconstruction formulas, so the spec's round-trip tolerance
property does not hold. -/
theorem mulaw_roundtrip_exceeds_band_step :
    AudioCodec.linearToMulaw 8000 = 0xA0 ∧
    AudioCodec.processIncomingAudio [AudioCodec.linearToMulaw 8000] = [5084] ∧
    AudioCodec.findExponent (8000 + 0x84) = 5 ∧
    (8000 : Int) - 5084 = 2916 ∧ (2916 : Int) > 2 ^ (5 + 3) := by
  refine ⟨by decide, by decide, by decide, by decide, by decide⟩

/-- The text-delta case of the segmenter, with its flush condition named
by the spec-side predicate (definitional equality). -/
theorem onNewGeneratedChunk_textDelta (st : VoiceAgent.SegState) (d : String) :
    VoiceAgent.onNewGeneratedChunk st (.textDelta d)
      = (if VoiceAgent.endsWithFullSentenceDelimiter d then
          (⟨""⟩, some (jsTrim (st.textBuffer ++ d)))
         else (⟨st.textBuffer ++ d⟩, none)) := rfl

/-- C3: segmenter flush correctness.  A delta is appended to the buffer
and triggers a flush (emission of the trimmed buffer with the flush flag
and clearing of the buffer) exactly when the last character of the delta
is a full-sentence delimiter; the finish event flushes a non-empty
trimmed remainder; and feeding the deltas "Hello", " world", "." one at
a time emits no flush on the first two deltas and exactly one flush,
with text "Hello world.", after the third. -/
theorem segmenter_flush_correct :
    (∀ (st : VoiceAgent.SegState) (d : String),
      ((VoiceAgent.onNewGeneratedChunk st (.textDelta d)).2).isSome
        = VoiceAgent.endsWithFullSentenceDelimiter d) ∧
    (∀ (st : VoiceAgent.SegState) (d : String),
      VoiceAgent.endsWithFullSentenceDelimiter d = true →
        VoiceAgent.onNewGeneratedChunk st (.textDelta d)
          = (⟨""⟩, some (jsTrim (st.textBuffer ++ d)))) ∧
    (∀ (st : VoiceAgent.SegState) (d : String),
      VoiceAgent.endsWithFullSentenceDelimiter d = false →
        VoiceAgent.onNewGeneratedChunk st (.textDelta d)
          = (⟨st.textBuffer ++ d⟩, none)) ∧
    (∀ st : VoiceAgent.SegState, jsTrim st.textBuffer ≠ "" →
        VoiceAgent.onNewGeneratedChunk st .finish
          = (⟨""⟩, some (jsTrim st.textBuffer))) ∧
    VoiceAgent.runChunks ⟨""⟩
        [.textDelta "Hello", .textDelta " world", .textDelta "."]
      = (⟨""⟩, [none, none, some "Hello world."]) := by
  refine ⟨?_, ?_, ?_, ?_, by decide⟩
  · intro st d
    rw [onNewGeneratedChunk_textDelta]
    cases hE : VoiceAgent.endsWithFullSentenceDelimiter d <;> simp [hE]
  · intro st d h
    rw [onNewGeneratedChunk_textDelta, h]
    simp
  · intro st d h
    rw [onNewGeneratedChunk_textDelta, h]
    simp
  · intro st h
    rw [VoiceAgent.onNewGeneratedChunk]
    rw [if_pos h]

/-- Witness for C3: the conditional parts of the theorem applied at
concrete buffers and deltas. -/
theorem segmenter_flush_correct_witness :
    VoiceAgent.onNewGeneratedChunk ⟨"Hi"⟩ (.textDelta " there.")
      = (⟨""⟩, some "Hi there.") ∧
    VoiceAgent.onNewGeneratedChunk ⟨"Hi"⟩ (.textDelta " the")
      = (⟨"Hi the"⟩, none) ∧
    VoiceAgent.onNewGeneratedChunk ⟨" tail "⟩ .finish
      = (⟨""⟩, some "tail") := by
  refine ⟨?_, ?_, ?_⟩
  · exact (segmenter_flush_correct.2.1 ⟨"Hi"⟩ " there." (by decide)).trans (by decide)
  · exact (segmenter_flush_correct.2.2.1 ⟨"Hi"⟩ " the" (by decide)).trans (by decide)
  · exact (segmenter_flush_correct.2.2.2.1 ⟨" tail "⟩ (by decide)).trans (by decide)

/-- C6: when VoiceAgent.handleTranscript receives a final transcript
while the accumulator is non-empty, exactly one user message is
committed, its content joins the accumulated fragments (including the
final transcript text when non-empty) with spaces, and the accumulator
is cleared for the next utterance. -/
theorem handleTranscript_commits_once :
    ∀ (st : VoiceAgent.TranscriptAccState) (t : VoiceAgent.Transcript),
      t.isFinal = true → st.transcriptAccumulator ≠ [] →
        VoiceAgent.handleTranscript st t
          = (⟨[]⟩, some (String.intercalate " "
              (if t.text.length > 0 then st.transcriptAccumulator ++ [t.text]
               else st.transcriptAccumulator))) := by
  intro st t hfin hne
  have hlen : 0 < (if t.text.length > 0 then st.transcriptAccumulator ++ [t.text]
      else st.transcriptAccumulator).length := by
    split <;> simp [List.length_pos, hne]
  simp only [VoiceAgent.handleTranscript]
  rw [if_pos ⟨hfin, hlen⟩]

/-- Witness for C6: a final transcript "world" arriving while "hello" is
accumulated commits the single message "hello world" and clears the
accumulator. -/
theorem handleTranscript_commits_once_witness :
    VoiceAgent.handleTranscript ⟨["hello"]⟩ ⟨"world", true⟩
      = (⟨[]⟩, some "hello world") := by
  exact (handleTranscript_commits_once ⟨["hello"]⟩ ⟨"world", true⟩
    (by decide) (by decide)).trans (by decide)

/-- Counterexample for C4: the ElevenLabs adapter, in the connected
state, forwards the lone punctuation text "." to the provider websocket
instead of suppressing it, so the empty/punctuation guard does not hold
for every TTS adapter. -/
theorem elevenlabs_sends_lone_punctuation :
    ElevenLabsTTS.sendText ⟨true, true⟩ "." true
      = Except.ok [ElevenLabsTTS.WsMessage.textMessage "." true] ∧
    [ElevenLabsTTS.WsMessage.textMessage "." true]
      ≠ ([] : List ElevenLabsTTS.WsMessage) := by
  refine ⟨rfl, by decide⟩

/-- C4 amended: the Inworld adapter guards empty and punctuation-only
text.  For the texts "", " ", and "." alone, InworldTTS.sendText returns
before any provider call and before any audio callback invocation,
whatever the provider outcome would have been; the ElevenLabs adapter
has no such guard and forwards the text whenever it is connected. -/
theorem inworld_sendText_guards_empty_text :
    ∀ outcome : InworldTTS.RequestOutcome,
      InworldTTS.sendText "" outcome = Except.ok [] ∧
      InworldTTS.sendText " " outcome = Except.ok [] ∧
      InworldTTS.sendText "." outcome = Except.ok [] := by
  intro outcome
  exact ⟨rfl, rfl, rfl⟩

/-- Counterexample for C8: an Inworld sendText whose provider request
fails (non-ok HTTP response) terminates normally with Except.ok - the
error is logged and swallowed, not surfaced to the caller, so sendText
does not terminate with an error in exactly the failure cases. -/
theorem inworld_swallows_provider_error :
    InworldTTS.sendText "Hello there." InworldTTS.RequestOutcome.responseNotOk
      = Except.ok [InworldTTS.Effect.providerRequest "Hello there."] := rfl

/-- C8 amended: error surfacing is per-adapter.  ElevenLabsTTS.sendText
terminates with an error exactly when there is no live session (not
connected or no websocket); InworldTTS.sendText never terminates with an
error - every provider failure is caught, logged and swallowed. -/
theorem sendText_error_surfacing :
    (∀ (st : ElevenLabsTTS.ConnState) (text : String) (flush : Bool),
      (∃ e, ElevenLabsTTS.sendText st text flush = Except.error e)
        ↔ (st.isConnected = false ∨ st.hasWs = false)) ∧
    (∀ (text : String) (outcome : InworldTTS.RequestOutcome),
      ∃ effs, InworldTTS.sendText text outcome = Except.ok effs) := by
  constructor
  · intro st text flush
    rcases st with ⟨ic, hw⟩
    cases ic <;> cases hw <;> cases flush <;>
      simp [ElevenLabsTTS.sendText]
  · intro text outcome
    by_cases hg : jsTrim text = "" ∨ (jsTrim text).length = 1
    · exact ⟨[], by rw [InworldTTS.sendText.eq_def, if_pos hg]⟩
    · cases outcome <;>
        exact ⟨_, by rw [InworldTTS.sendText.eq_def, if_neg hg]⟩

/-- C9: connect is idempotent in the connected state for both STT
adapters.  DeepgramStt.connect with an existing connected session
returns with no state change and creates no new session;
AssemblyAIStt.connect with an OPEN websocket likewise returns its state
unchanged with no new websocket, regardless of token availability. -/
theorem stt_connect_idempotent_when_connected :
    (∀ st : DeepgramStt.State,
      st.hasSession = true → st.sessionConnected = true →
        DeepgramStt.connect st = (st, DeepgramStt.ConnectAction.alreadyConnected)) ∧
    (∀ (st : AssemblyAIStt.State) (tokenOk : Bool),
      st.hasWs = true → st.wsOpen = true →
        AssemblyAIStt.connect st tokenOk
          = Except.ok (st, AssemblyAIStt.ConnectAction.alreadyConnected)) := by
  constructor
  · intro st h1 h2
    rw [DeepgramStt.connect, if_pos ⟨h1, h2⟩]
  · intro st tokenOk h1 h2
    rw [AssemblyAIStt.connect, if_pos ⟨h1, h2⟩]

/-- Witness for C9: both idempotence statements applied at concrete
connected states. -/
theorem stt_connect_idempotent_when_connected_witness :
    DeepgramStt.connect ⟨true, true, true⟩
      = (⟨true, true, true⟩, DeepgramStt.ConnectAction.alreadyConnected) ∧
    AssemblyAIStt.connect ⟨true, true, true, 0, false⟩ false
      = Except.ok (⟨true, true, true, 0, false⟩,
          AssemblyAIStt.ConnectAction.alreadyConnected) := by
  constructor
  · exact stt_connect_idempotent_when_connected.1 ⟨true, true, true⟩
      (by decide) (by decide)
  · exact stt_connect_idempotent_when_connected.2 ⟨true, true, true, 0, false⟩
      false (by decide) (by decide)

/-- One close step while the counter is below the maximum schedules a
reconnect with the exponential backoff delay. -/
theorem onClose_schedule (st : AssemblyAIStt.State) (ev : AssemblyAIStt.CloseEvent)
    (hsr : st.shouldReconnect = true)
    (hlt : st.reconnectAttempts < AssemblyAIStt.maxReconnectAttempts) :
    AssemblyAIStt.onClose st ev
      = ({ st with
            tokenValid := AssemblyAIStt.tokenAfter st ev
            wsOpen := false
            reconnectAttempts := st.reconnectAttempts + 1 },
         AssemblyAIStt.CloseAction.scheduleReconnect
           (min (1000 * 2 ^ (st.reconnectAttempts + 1 - 1)) 10000)) := by
  rw [AssemblyAIStt.onClose, if_pos ⟨hsr, hlt⟩]

/-- One close step at or past the maximum gives up and disables
auto-reconnect. -/
theorem onClose_giveUp (st : AssemblyAIStt.State) (ev : AssemblyAIStt.CloseEvent)
    (hge : AssemblyAIStt.maxReconnectAttempts ≤ st.reconnectAttempts) :
    AssemblyAIStt.onClose st ev
      = ({ st with
            tokenValid := AssemblyAIStt.tokenAfter st ev
            wsOpen := false
            shouldReconnect := false },
         AssemblyAIStt.CloseAction.giveUp) := by
  rw [AssemblyAIStt.onClose, if_neg (fun h => absurd h.2 (Nat.not_lt.mpr hge)),
    if_pos hge]

/-- One close step with auto-reconnect off and the counter below the
maximum does nothing. -/
theorem onClose_noAction (st : AssemblyAIStt.State) (ev : AssemblyAIStt.CloseEvent)
    (hsr : st.shouldReconnect = false)
    (hlt : st.reconnectAttempts < AssemblyAIStt.maxReconnectAttempts) :
    AssemblyAIStt.onClose st ev
      = ({ st with tokenValid := AssemblyAIStt.tokenAfter st ev, wsOpen := false },
         AssemblyAIStt.CloseAction.noAction) := by
  rw [AssemblyAIStt.onClose,
    if_neg (fun h => by rw [hsr] at h; exact Bool.false_ne_true h.1),
    if_neg (Nat.not_le.mpr hlt)]

/-- After the maximum has been reached, a run of close events never
schedules a reconnect and never decreases the counter. -/
theorem runCloses_after_max (evs : List AssemblyAIStt.CloseEvent) :
    ∀ st : AssemblyAIStt.State,
      AssemblyAIStt.maxReconnectAttempts ≤ st.reconnectAttempts →
      AssemblyAIStt.scheduledDelays (AssemblyAIStt.runCloses st evs).2 = [] ∧
      AssemblyAIStt.maxReconnectAttempts
        ≤ (AssemblyAIStt.runCloses st evs).1.reconnectAttempts := by
  induction evs with
  | nil => intro st h; exact ⟨rfl, h⟩
  | cons ev evs ih =>
    intro st h
    have hstep := onClose_giveUp st ev h
    simp only [AssemblyAIStt.runCloses, hstep, AssemblyAIStt.scheduledDelays]
    exact ih _ h

/-- With auto-reconnect off, a run of close events never schedules a
reconnect and leaves auto-reconnect off. -/
theorem runCloses_sr_false (evs : List AssemblyAIStt.CloseEvent) :
    ∀ st : AssemblyAIStt.State, st.shouldReconnect = false →
      AssemblyAIStt.scheduledDelays (AssemblyAIStt.runCloses st evs).2 = [] ∧
      (AssemblyAIStt.runCloses st evs).1.shouldReconnect = false := by
  induction evs with
  | nil => intro st h; exact ⟨rfl, h⟩
  | cons ev evs ih =>
    intro st h
    by_cases hge : AssemblyAIStt.maxReconnectAttempts ≤ st.reconnectAttempts
    · have hstep := onClose_giveUp st ev hge
      simp only [AssemblyAIStt.runCloses, hstep, AssemblyAIStt.scheduledDelays]
      exact ih _ rfl
    · have hstep := onClose_noAction st ev h (Nat.not_le.mp hge)
      simp only [AssemblyAIStt.runCloses, hstep, AssemblyAIStt.scheduledDelays]
      exact ih _ h

/-- While auto-reconnect is on, the scheduled delays of a run of n close
events are the first n entries of the backoff table left after the
attempts already consumed. -/
theorem runCloses_delays_drop (evs : List AssemblyAIStt.CloseEvent) :
    ∀ st : AssemblyAIStt.State, st.shouldReconnect = true →
      AssemblyAIStt.scheduledDelays (AssemblyAIStt.runCloses st evs).2
        = ([1000, 2000, 4000].drop st.reconnectAttempts).take evs.length := by
  induction evs with
  | nil => intro st hsr; simp [AssemblyAIStt.runCloses, AssemblyAIStt.scheduledDelays]
  | cons ev evs ih =>
    intro st hsr
    by_cases hlt : st.reconnectAttempts < AssemblyAIStt.maxReconnectAttempts
    · have hstep := onClose_schedule st ev hsr hlt
      simp only [AssemblyAIStt.runCloses, hstep, AssemblyAIStt.scheduledDelays]
      have ihs := ih { st with
          tokenValid := AssemblyAIStt.tokenAfter st ev
          wsOpen := false
          reconnectAttempts := st.reconnectAttempts + 1 } hsr
      rw [ihs]
      dsimp only
      have ha : st.reconnectAttempts < 3 := by
        simpa [AssemblyAIStt.maxReconnectAttempts] using hlt
      rcases hfield : st.reconnectAttempts with _ | _ | _ | a
      · simp [Nat.min_def]
      · simp [Nat.min_def]
      · simp [Nat.min_def]
      · rw [hfield] at ha; omega
    · have hge : AssemblyAIStt.maxReconnectAttempts ≤ st.reconnectAttempts :=
        Nat.not_lt.mp hlt
      have hstep := onClose_giveUp st ev hge
      simp only [AssemblyAIStt.runCloses, hstep, AssemblyAIStt.scheduledDelays]
      have hafter := (runCloses_after_max evs { st with
          tokenValid := AssemblyAIStt.tokenAfter st ev
          wsOpen := false
          shouldReconnect := false } hge).1
      rw [hafter,
        List.drop_eq_nil_of_le
          (by simpa [AssemblyAIStt.maxReconnectAttempts] using hge)]
      simp

/-- Any prefix of any suffix of the backoff table is non-decreasing. -/
theorem nonDecreasing_take_drop (a n : Nat) :
    AssemblyAIStt.nonDecreasing (([1000, 2000, 4000].drop a).take n) = true := by
  rcases a with _ | _ | _ | a
  · rcases n with _ | _ | _ | n <;> simp [AssemblyAIStt.nonDecreasing]
  · rcases n with _ | _ | n <;> simp [AssemblyAIStt.nonDecreasing]
  · rcases n with _ | n <;> simp [AssemblyAIStt.nonDecreasing]
  · simp [AssemblyAIStt.nonDecreasing]

/-- C5 as amended: bounded exponential reconnect backoff of the
AssemblyAI adapter, with the terminal failure only logged, never
surfaced to the consumer.  From a freshly connected state
(auto-reconnect on, counter zero), a run of n consecutive close events
schedules reconnects with exactly the first n delays of the table 1000,
2000, 4000 ms (so at most maxReconnectAttempts = 3 reconnects ever
happen); the scheduled delays of every run are monotonically
non-decreasing and never more than maxReconnectAttempts in number; a
run of at least four consecutive failures reaches the give-up branch -
a console log plus clearing the private shouldReconnect flag - and
permanently disables auto-reconnect; once the maximum is reached no
reconnect is ever scheduled again; and in the resulting given-up state
(websocket object present but closed, auto-reconnect off) every
sendAudioChunk call returns normally with no effect, silently dropping
the audio instead of raising any failure to the session. -/
theorem assemblyai_reconnect_bounded :
    (∀ (st : AssemblyAIStt.State) (evs : List AssemblyAIStt.CloseEvent),
      st.shouldReconnect = true → st.reconnectAttempts = 0 →
        AssemblyAIStt.scheduledDelays (AssemblyAIStt.runCloses st evs).2
          = [1000, 2000, 4000].take evs.length) ∧
    (∀ (st : AssemblyAIStt.State) (evs : List AssemblyAIStt.CloseEvent),
      AssemblyAIStt.nonDecreasing
        (AssemblyAIStt.scheduledDelays (AssemblyAIStt.runCloses st evs).2) = true) ∧
    (∀ (st : AssemblyAIStt.State) (evs : List AssemblyAIStt.CloseEvent),
      (AssemblyAIStt.scheduledDelays (AssemblyAIStt.runCloses st evs).2).length
        ≤ AssemblyAIStt.maxReconnectAttempts) ∧
    (∀ (st : AssemblyAIStt.State)
        (e1 e2 e3 e4 : AssemblyAIStt.CloseEvent)
        (evs : List AssemblyAIStt.CloseEvent),
      st.shouldReconnect = true → st.reconnectAttempts = 0 →
        AssemblyAIStt.CloseAction.giveUp
            ∈ (AssemblyAIStt.runCloses st (e1 :: e2 :: e3 :: e4 :: evs)).2 ∧
          (AssemblyAIStt.runCloses st (e1 :: e2 :: e3 :: e4 :: evs)).1.shouldReconnect
            = false) ∧
    (∀ (st : AssemblyAIStt.State) (evs : List AssemblyAIStt.CloseEvent),
      AssemblyAIStt.maxReconnectAttempts ≤ st.reconnectAttempts →
        AssemblyAIStt.scheduledDelays (AssemblyAIStt.runCloses st evs).2 = []) ∧
    (∀ (st : AssemblyAIStt.State) (tokenOk : Bool) (chunk : List Nat),
      st.hasWs = true → st.wsOpen = false → st.shouldReconnect = false →
        AssemblyAIStt.sendAudioChunk st tokenOk chunk
          = Except.ok (st, [])) := by
  refine ⟨?_, ?_, ?_, ?_, ?_, ?_⟩
  · intro st evs hsr h0
    rw [runCloses_delays_drop evs st hsr, h0, List.drop_zero]
  · intro st evs
    rcases hsr : st.shouldReconnect with _ | _
    · rw [(runCloses_sr_false evs st hsr).1]; rfl
    · rw [runCloses_delays_drop evs st hsr]
      exact nonDecreasing_take_drop _ _
  · intro st evs
    rcases hsr : st.shouldReconnect with _ | _
    · rw [(runCloses_sr_false evs st hsr).1]
      simp [AssemblyAIStt.maxReconnectAttempts]
    · rw [runCloses_delays_drop evs st hsr]
      simp [List.length_take, AssemblyAIStt.maxReconnectAttempts]
  · intro st e1 e2 e3 e4 evs hsr h0
    rcases st with ⟨hw, wso, sr, a, tv⟩
    dsimp only at hsr h0
    subst hsr
    subst h0
    refine ⟨?_, ?_⟩
    · simp [AssemblyAIStt.runCloses, AssemblyAIStt.onClose,
        AssemblyAIStt.maxReconnectAttempts]
    · simp only [AssemblyAIStt.runCloses, AssemblyAIStt.onClose,
        AssemblyAIStt.maxReconnectAttempts]
      simp only [show (0 : Nat) < 3 from by decide, show (1 : Nat) < 3 from by decide]
      exact (runCloses_sr_false evs _ rfl).2
  · intro st evs h
    exact (runCloses_after_max evs st h).1
  · intro st tokenOk chunk h1 h2 h3
    rw [AssemblyAIStt.sendAudioChunk, if_neg (by simp [h1]), if_pos h2,
      if_neg (by simp [h3])]

/-- Witness for C5: five consecutive close events from a freshly
connected adapter schedule exactly the delays 1000, 2000, 4000 ms,
produce the give-up transition, and leave auto-reconnect permanently
off; a run starting at the maximum schedules nothing; and in the
given-up state a concrete audio chunk is silently dropped with no
error. -/
theorem assemblyai_reconnect_bounded_witness :
    AssemblyAIStt.scheduledDelays
        (AssemblyAIStt.runCloses ⟨true, true, true, 0, true⟩
          (List.replicate 5 ⟨false, false⟩)).2 = [1000, 2000, 4000] ∧
    AssemblyAIStt.CloseAction.giveUp
        ∈ (AssemblyAIStt.runCloses ⟨true, true, true, 0, true⟩
          (List.replicate 5 ⟨false, false⟩)).2 ∧
    (AssemblyAIStt.runCloses ⟨true, true, true, 0, true⟩
        (List.replicate 5 ⟨false, false⟩)).1.shouldReconnect = false ∧
    AssemblyAIStt.scheduledDelays
        (AssemblyAIStt.runCloses ⟨true, false, false, 3, true⟩
          [⟨false, false⟩, ⟨false, false⟩]).2 = [] ∧
    AssemblyAIStt.sendAudioChunk ⟨true, false, false, 3, true⟩ true [7]
      = Except.ok (⟨true, false, false, 3, true⟩, []) := by
  refine ⟨?_, ?_, ?_, ?_, ?_⟩
  · exact (assemblyai_reconnect_bounded.1 ⟨true, true, true, 0, true⟩
      (List.replicate 5 ⟨false, false⟩) rfl rfl).trans (by decide)
  · exact (assemblyai_reconnect_bounded.2.2.2.1 ⟨true, true, true, 0, true⟩
      ⟨false, false⟩ ⟨false, false⟩ ⟨false, false⟩ ⟨false, false⟩
      [⟨false, false⟩] rfl rfl).1
  · exact (assemblyai_reconnect_bounded.2.2.2.1 ⟨true, true, true, 0, true⟩
      ⟨false, false⟩ ⟨false, false⟩ ⟨false, false⟩ ⟨false, false⟩
      [⟨false, false⟩] rfl rfl).2
  · exact assemblyai_reconnect_bounded.2.2.2.2.1 ⟨true, false, false, 3, true⟩
      [⟨false, false⟩, ⟨false, false⟩] (by decide)
  · exact assemblyai_reconnect_bounded.2.2.2.2.2 ⟨true, false, false, 3, true⟩
      true [7] rfl rfl rfl

/-- Every onMessage event preserves a set greetingSent flag: no event
path ever resets it. -/
theorem onMessage_preserves_greetingSent
    (st : TwilioVoiceAgent.AgentState) (ev : TwilioVoiceAgent.TwilioEvent)
    (h : st.greetingSent = true) :
    (TwilioVoiceAgent.onMessage st ev).1.greetingSent = true := by
  rcases ev with _ | ⟨sid, cs⟩ | ⟨sid, pl⟩ | cs | _
  · simp only [TwilioVoiceAgent.onMessage]
    repeat' split <;> simp_all [TwilioVoiceAgent.onStartServices]
  · simp only [TwilioVoiceAgent.onMessage]
    repeat' split <;> simp_all [TwilioVoiceAgent.onStartServices]
  · simp only [TwilioVoiceAgent.onMessage]
    repeat' split <;> simp_all [TwilioVoiceAgent.onStartServices]
  · simp [TwilioVoiceAgent.onMessage, TwilioVoiceAgent.handleCallEnd, h]
  · simp [TwilioVoiceAgent.onMessage, h]

/-- A start event after the greeting was sent emits nothing. -/
theorem onMessage_start_silent_when_greeted
    (st : TwilioVoiceAgent.AgentState) (sid cs : String)
    (h : st.greetingSent = true) :
    (TwilioVoiceAgent.onMessage st
      (TwilioVoiceAgent.TwilioEvent.start sid cs)).2 = [] := by
  simp only [TwilioVoiceAgent.onMessage]
  simp [h]

/-- A connected event after the greeting was sent emits nothing. -/
theorem onMessage_connected_silent_when_greeted
    (st : TwilioVoiceAgent.AgentState) (h : st.greetingSent = true) :
    (TwilioVoiceAgent.onMessage st TwilioVoiceAgent.TwilioEvent.connected).2
      = [] := by
  simp only [TwilioVoiceAgent.onMessage]
  split <;> simp_all [TwilioVoiceAgent.onStartServices]

/-- C1: the claim fails on the code.  For the single-call event sequence
[connected, media with stream id MZ1] on a freshly initialized agent, the
greeting is sent twice: the connected path sends it once (and sets
greetingSent), and the media path sends it again because the source
gates that path on a stream-id change - the id is unset until the first
media event - and neither consults nor sets greetingSent, as the second
conjunct shows directly on a state whose greetingSent flag is already
true. -/
theorem twilio_greeting_sent_twice :
    (TwilioVoiceAgent.runEvents TwilioVoiceAgent.freshCallState
        [TwilioVoiceAgent.TwilioEvent.connected,
         TwilioVoiceAgent.TwilioEvent.media (some "MZ1") none]).2
      = [TwilioVoiceAgent.AgentEffect.greeting false,
         TwilioVoiceAgent.AgentEffect.greeting false] ∧
    TwilioVoiceAgent.greetingCount
        (TwilioVoiceAgent.runEvents TwilioVoiceAgent.freshCallState
          [TwilioVoiceAgent.TwilioEvent.connected,
           TwilioVoiceAgent.TwilioEvent.media (some "MZ1") none]).2 = 2 ∧
    TwilioVoiceAgent.greetingCount
        (TwilioVoiceAgent.onMessage
          { TwilioVoiceAgent.freshCallState with greetingSent := true }
          (TwilioVoiceAgent.TwilioEvent.media (some "MZ1") none)).2 = 1 := by
  refine ⟨by decide, by decide, by decide⟩

/-- C10: greetingSent, once true, is preserved by every operation of the
TwilioVoiceAgent - every onMessage event (including stop, whose
handleCallEnd clears only the call-scoped identifiers), handleCallEnd
itself, the voice webhook, and onConnect; consequently, after the first
call ends and a second call is set up through the webhook, the connected
and start event paths send no greeting at all. -/
theorem greetingSent_never_reset :
    (∀ (st : TwilioVoiceAgent.AgentState) (ev : TwilioVoiceAgent.TwilioEvent),
      st.greetingSent = true →
        (TwilioVoiceAgent.onMessage st ev).1.greetingSent = true) ∧
    (∀ (st : TwilioVoiceAgent.AgentState) (cs : String),
      (TwilioVoiceAgent.handleCallEnd st cs).greetingSent = st.greetingSent) ∧
    (∀ (st : TwilioVoiceAgent.AgentState) (cs f : String) (u : Option String),
      (TwilioVoiceAgent.handleWebhook st cs f u).greetingSent
        = st.greetingSent) ∧
    (∀ (st : TwilioVoiceAgent.AgentState) (p : Option String),
      ((TwilioVoiceAgent.onConnect st p).1).greetingSent = st.greetingSent) ∧
    (∀ (st : TwilioVoiceAgent.AgentState) (sid cs : String),
      st.greetingSent = true →
        (TwilioVoiceAgent.onMessage st
          (TwilioVoiceAgent.TwilioEvent.start sid cs)).2 = []) ∧
    (∀ st : TwilioVoiceAgent.AgentState,
      st.greetingSent = true →
        (TwilioVoiceAgent.onMessage st
          TwilioVoiceAgent.TwilioEvent.connected).2 = []) ∧
    (∀ (st : TwilioVoiceAgent.AgentState) (cs1 cs2 f sid : String)
        (u : Option String),
      st.greetingSent = true →
        TwilioVoiceAgent.greetingCount
          (TwilioVoiceAgent.runEvents
            (TwilioVoiceAgent.handleWebhook
              (TwilioVoiceAgent.handleCallEnd st cs1) cs2 f u)
            [TwilioVoiceAgent.TwilioEvent.connected,
             TwilioVoiceAgent.TwilioEvent.start sid cs2]).2 = 0) := by
  refine ⟨onMessage_preserves_greetingSent, fun st cs => rfl,
    fun st cs f u => rfl, ?_, onMessage_start_silent_when_greeted,
    onMessage_connected_silent_when_greeted, ?_⟩
  · intro st p
    rw [TwilioVoiceAgent.onConnect.eq_def]
    rcases p with _ | cs <;> dsimp only <;> split <;> rfl
  · intro st cs1 cs2 f sid u h
    have h1 : (TwilioVoiceAgent.handleWebhook
        (TwilioVoiceAgent.handleCallEnd st cs1) cs2 f u).greetingSent = true := h
    have e1 := onMessage_connected_silent_when_greeted _ h1
    have h2 := onMessage_preserves_greetingSent _
      TwilioVoiceAgent.TwilioEvent.connected h1
    have e2 := onMessage_start_silent_when_greeted _ sid cs2 h2
    simp only [TwilioVoiceAgent.runEvents, e1, e2]
    rfl

/-- Witness for C10: the preservation and silence statements applied at
concrete already-greeted states, and a concrete second call whose
connected and start events emit nothing. -/
theorem greetingSent_never_reset_witness :
    (TwilioVoiceAgent.onMessage
        { TwilioVoiceAgent.freshCallState with greetingSent := true }
        (TwilioVoiceAgent.TwilioEvent.media (some "MZ1") none)).1.greetingSent
      = true ∧
    (TwilioVoiceAgent.onMessage
        { TwilioVoiceAgent.freshCallState with greetingSent := true }
        (TwilioVoiceAgent.TwilioEvent.start "MZ2" "CA2")).2 = [] ∧
    (TwilioVoiceAgent.onMessage
        { TwilioVoiceAgent.freshCallState with greetingSent := true }
        TwilioVoiceAgent.TwilioEvent.connected).2 = [] ∧
    TwilioVoiceAgent.greetingCount
        (TwilioVoiceAgent.runEvents
          (TwilioVoiceAgent.handleWebhook
            (TwilioVoiceAgent.handleCallEnd
              { TwilioVoiceAgent.freshCallState with greetingSent := true }
              "CA1")
            "CA2" "+15550000000" none)
          [TwilioVoiceAgent.TwilioEvent.connected,
           TwilioVoiceAgent.TwilioEvent.start "MZ2" "CA2"]).2 = 0 := by
  refine ⟨?_, ?_, ?_, ?_⟩
  · exact greetingSent_never_reset.1 _ _ rfl
  · exact greetingSent_never_reset.2.2.2.2.1 _ "MZ2" "CA2" rfl
  · exact greetingSent_never_reset.2.2.2.2.2.1 _ rfl
  · exact greetingSent_never_reset.2.2.2.2.2.2 _ "CA1" "CA2" "+15550000000"
      "MZ2" none rfl

/-- Counterexample for C5: the terminal connection failure is NOT
surfaced upward.  Four consecutive connection failures from a freshly
connected adapter leave the concrete given-up state (websocket object
present but closed, auto-reconnect off, counter at the maximum); the
give-up branch itself only logs and clears the private shouldReconnect
flag, and a subsequent sendAudioChunk on that state - with or without a
token available - returns normally with no effect at all: the audio is
silently dropped and no error, exception or callback reaches the
session's consumer, refuting the claim's conjunct that the session
surfaces a terminal connection failure upward. -/
theorem assemblyai_giveup_not_surfaced :
    (AssemblyAIStt.runCloses ⟨true, true, true, 0, true⟩
        (List.replicate 4 ⟨false, false⟩)).1
      = ⟨true, false, false, 3, true⟩ ∧
    AssemblyAIStt.sendAudioChunk ⟨true, false, false, 3, true⟩ false [1, 2, 3]
      = Except.ok (⟨true, false, false, 3, true⟩, []) ∧
    AssemblyAIStt.sendAudioChunk ⟨true, false, false, 3, true⟩ true [1, 2, 3]
      = Except.ok (⟨true, false, false, 3, true⟩, []) := by
  refine ⟨by decide, rfl, rfl⟩
